import Mathlib

/-!
Verification of the LSP JSON-RPC transport layer of the solidity language
server (libsolidity/lsp/Transport.h).

The header file declares the transport surface: the `ErrorCode` enumeration,
the `MessageID` alias, the abstract `Transport` interface and the concrete
`JSONTransport` whose framing routines (`parseHeaders`, `readBytes`,
`readLine`, `send`) implement the LSP base protocol.  The member function
bodies live in a translation unit that is not part of this tree, so the
framing behaviour is modelled from the specification of the base protocol
(header block parsing, byte-exact body reads, `Content-Length` framing),
while the declarations themselves (enumerator values, the `MessageID` alias,
default arguments) are transcribed from the header.

The byte channel is modelled as a list of natural numbers (byte values); the
JSON document type is modelled as an inductive value type with a concrete
serializer and parser, standing in for the external JSON library.
-/

namespace Solidity.Lsp

/-- The JSON document model: an opaque value type supporting
object/array/string/number/null, as used by the transport layer. -/
inductive Json where
  | null : Json
  | bool : Bool → Json
  | num : Int → Json
  | str : String → Json
  | arr : List Json → Json
  | obj : List (String × Json) → Json
deriving Repr

/-- `MessageID` is declared in Transport.h as an alias of the whole JSON
value type: `using MessageID = Json::Value;`. -/
abbrev MessageID : Type := Json

/-- Whether a JSON value is null (`Json::nullValue`). -/
def Json.isNull : Json → Bool
  | .null => true
  | _ => false

/-- Field lookup in a JSON object; `none` on non-objects or missing keys. -/
def Json.getField : Json → String → Option Json
  | .obj fields, key => fields.lookup key
  | _, _ => none

/-- The `ErrorCode` enumeration from Transport.h, enumerator names as in the
source. -/
inductive ErrorCode where
  | ParseError
  | InvalidRequest
  | MethodNotFound
  | InvalidParams
  | InternalError
  | serverErrorStart
  | serverErrorEnd
  | ServerNotInitialized
  | UnknownErrorCode
  | RequestCancelled
  | ContentModified
deriving DecidableEq, Repr

/-- The numeric value of each `ErrorCode` enumerator, as assigned in
Transport.h. -/
def ErrorCode.value : ErrorCode → Int
  | .ParseError => -32700
  | .InvalidRequest => -32600
  | .MethodNotFound => -32601
  | .InvalidParams => -32602
  | .InternalError => -32603
  | .serverErrorStart => -32099
  | .serverErrorEnd => -32000
  | .ServerNotInitialized => -32002
  | .UnknownErrorCode => -32001
  | .RequestCancelled => -32800
  | .ContentModified => -32801

/-! ## Decimal digits

The frame writer prints the body length in decimal, and the header parser
reads `Content-Length` back as a decimal non-negative integer. -/

/-- The character for a single decimal digit value. -/
def digitChar (d : Nat) : Char := Char.ofNat (48 + d)

/-- Decimal digit characters of a natural number, most significant first;
the fuel argument (any bound above the number) keeps the recursion
structural. -/
def natToDigitsAux : Nat → Nat → List Char
  | 0, _ => []
  | fuel + 1, n =>
    if n < 10 then [digitChar n]
    else natToDigitsAux fuel (n / 10) ++ [digitChar (n % 10)]

/-- Decimal digit characters of a natural number, most significant first. -/
def natToDigits (n : Nat) : List Char := natToDigitsAux (n + 1) n

/-- The numeric value of a decimal digit character, if it is one. -/
def digitVal (c : Char) : Option Nat :=
  if 48 ≤ c.toNat ∧ c.toNat ≤ 57 then some (c.toNat - 48) else none

/-- Fold decimal digits onto an accumulator; `none` on a non-digit. -/
def digitsToNatAux : List Char → Nat → Option Nat
  | [], acc => some acc
  | c :: cs, acc =>
    match digitVal c with
    | none => none
    | some d => digitsToNatAux cs (10 * acc + d)

/-- Parse a non-empty all-digits character list as a decimal natural. -/
def parseDecimalChars (cs : List Char) : Option Nat :=
  if cs.isEmpty then none else digitsToNatAux cs 0

/-- Parse a header value string as a decimal non-negative integer. -/
def parseDecimal (s : String) : Option Nat := parseDecimalChars s.data

/-! ## UTF-8 byte encoding

The wire carries the UTF-8 encoding of the serialized JSON text, and the
`Content-Length` header counts those bytes. -/

/-- UTF-8 bytes of a single character. -/
def utf8EncodeChar (c : Char) : List Nat :=
  let n := c.toNat
  if n < 0x80 then [n]
  else if n < 0x800 then [0xC0 + n / 0x40, 0x80 + n % 0x40]
  else if n < 0x10000 then
    [0xE0 + n / 0x1000, 0x80 + n / 0x40 % 0x40, 0x80 + n % 0x40]
  else
    [0xF0 + n / 0x40000, 0x80 + n / 0x1000 % 0x40, 0x80 + n / 0x40 % 0x40,
      0x80 + n % 0x40]

/-- UTF-8 bytes of a character sequence. -/
def utf8EncodeChars : List Char → List Nat
  | [] => []
  | c :: cs => utf8EncodeChar c ++ utf8EncodeChars cs

/-- Whether a byte is a UTF-8 continuation byte. -/
def utf8IsCont (b : Nat) : Bool := 0x80 ≤ b ∧ b < 0xC0

/-- Decode a UTF-8 byte sequence back to characters; `none` on a malformed
or truncated sequence.  The fuel argument (any bound above the byte count)
keeps the recursion structural. -/
def utf8DecodeAux : Nat → List Nat → Option (List Char)
  | _, [] => some []
  | 0, _ :: _ => none
  | fuel + 1, b :: bs =>
    if b < 0x80 then
      (utf8DecodeAux fuel bs).map (fun cs => Char.ofNat b :: cs)
    else if 0xC0 ≤ b ∧ b < 0xE0 then
      match bs with
      | b2 :: bs2 =>
        if utf8IsCont b2 then
          (utf8DecodeAux fuel bs2).map
            (fun cs => Char.ofNat ((b - 0xC0) * 0x40 + (b2 - 0x80)) :: cs)
        else none
      | [] => none
    else if 0xE0 ≤ b ∧ b < 0xF0 then
      match bs with
      | b2 :: b3 :: bs3 =>
        if utf8IsCont b2 ∧ utf8IsCont b3 then
          (utf8DecodeAux fuel bs3).map
            (fun cs =>
              Char.ofNat ((b - 0xE0) * 0x1000 + (b2 - 0x80) * 0x40 + (b3 - 0x80)) :: cs)
        else none
      | _ => none
    else if 0xF0 ≤ b ∧ b < 0xF8 then
      match bs with
      | b2 :: b3 :: b4 :: bs4 =>
        if utf8IsCont b2 ∧ utf8IsCont b3 ∧ utf8IsCont b4 then
          (utf8DecodeAux fuel bs4).map
            (fun cs =>
              Char.ofNat ((b - 0xF0) * 0x40000 + (b2 - 0x80) * 0x1000
                + (b3 - 0x80) * 0x40 + (b4 - 0x80)) :: cs)
        else none
      | _ => none
    else none

/-- Decode a complete UTF-8 byte sequence back to characters. -/
def utf8DecodeChars (bytes : List Nat) : Option (List Char) :=
  utf8DecodeAux bytes.length bytes

/-! ## Line reading

Modelled from the spec: `JSONTransport::readLine` parses a single text line
from the client ending with CRLF (or just LF); its body is not in the tree. -/

/-- Collect the bytes before the first LF as characters; `none` when the
input ends before a LF is seen (end of stream inside a header line). -/
def readLineRaw : List Nat → Option (List Char × List Nat)
  | [] => none
  | b :: rest =>
    if b = 10 then some ([], rest)
    else
      match readLineRaw rest with
      | some (line, rest2) => some (Char.ofNat b :: line, rest2)
      | none => none

/-- Strip one optional trailing CR from a line. -/
def stripCR (line : List Char) : List Char :=
  if line.getLast? = some (Char.ofNat 13) then line.dropLast else line

/-- Modelled from the spec: read one header line, LF-terminated with an
optional preceding CR stripped; `none` on end of stream before the LF. -/
def readLine (input : List Nat) : Option (List Char × List Nat) :=
  match readLineRaw input with
  | some (line, rest) => some (stripCR line, rest)
  | none => none

/-! ## Header block parsing

Modelled from the spec: `JSONTransport::parseHeaders` parses the header
section including the message-delimiting empty line; its body is not in the
tree.  Each non-empty line must match `Name: Value`; `Content-Length` is
required, decimal and non-negative; conflicting duplicates are invalid. -/

/-- The header map type of Transport.h (`std::map<std::string, std::string>`),
as an association list. -/
abbrev HeaderMap : Type := List (String × String)

/-- Split a header line at its first colon into name and value (leading
spaces of the value dropped); `none` when the line has no colon. -/
def parseHeaderLine (line : List Char) : Option (String × String) :=
  match line.dropWhile (fun c => c != ':') with
  | [] => none
  | _ :: valueRaw =>
    some (String.mk (line.takeWhile (fun c => c != ':')),
          String.mk (valueRaw.dropWhile (fun c => c == ' ')))

/-- Record a header, rejecting a duplicate with a conflicting value. -/
def insertHeader (hm : HeaderMap) (name value : String) : Option HeaderMap :=
  match List.lookup name hm with
  | none => some (hm ++ [(name, value)])
  | some v0 => if v0 = value then some hm else none

/-- A finished header map is valid when it holds a `Content-Length` whose
value is a non-empty string of decimal digits. -/
def validHeaderMap (hm : HeaderMap) : Bool :=
  match List.lookup ("Content-Length") hm with
  | some v => !v.data.isEmpty && v.data.all (fun c => 48 ≤ c.toNat ∧ c.toNat ≤ 57)
  | none => false

/-- Header-parsing loop: read lines up to the empty delimiter line,
accumulating the header map; any hard parse failure yields `none`.  The
fuel argument bounds the number of lines (each consumed line takes at
least one input byte). -/
def parseHeadersLoop : Nat → List Nat → HeaderMap → Option (HeaderMap × List Nat)
  | 0, _, _ => none
  | fuel + 1, input, hm =>
    match readLine input with
    | none => none
    | some (line, rest) =>
      if line.isEmpty then
        if validHeaderMap hm then some (hm, rest) else none
      else
        match parseHeaderLine line with
        | none => none
        | some (name, value) =>
          match insertHeader hm name value with
          | none => none
          | some hm2 => parseHeadersLoop fuel rest hm2

/-- Modelled from the spec: parse the header section from the client,
including the message-delimiting empty line.  Yields the header map and the
unconsumed input, or `none` on any hard parse failure (missing or
non-numeric `Content-Length`, conflicting duplicates, malformed line,
end of stream inside the header block). -/
def parseHeaders (input : List Nat) : Option (HeaderMap × List Nat) :=
  parseHeadersLoop (input.length + 1) input []

/-! ## Byte-exact body read -/

/-- Modelled from the spec: `JSONTransport::readBytes` reads the given
number of bytes from the client without interpreting them; a short read
(channel ends first) is a failure, never a partial return. -/
def readBytes (n : Nat) (input : List Nat) : Option (List Nat × List Nat) :=
  if n ≤ input.length then some (input.take n, input.drop n) else none

/-! ## JSON serialization

The transport treats the JSON document type as an external value type with
parse/serialize support; this is a concrete compact serializer (no
whitespace, fields in construction order) and a matching parser. -/

/-- Escape a character for a JSON string literal: quote and backslash are
escaped, everything else is emitted as-is. -/
def escapeChar (c : Char) : List Char :=
  if c = Char.ofNat 34 then [Char.ofNat 92, Char.ofNat 34]
  else if c = Char.ofNat 92 then [Char.ofNat 92, Char.ofNat 92]
  else [c]

/-- Escape every character of a string body. -/
def escapeChars : List Char → List Char
  | [] => []
  | c :: cs => escapeChar c ++ escapeChars cs

/-- A JSON string literal: quote, escaped body, quote. -/
def jsonStringChars (s : String) : List Char :=
  Char.ofNat 34 :: escapeChars s.data ++ [Char.ofNat 34]

/-- Decimal characters of an integer, with a leading minus sign when
negative. -/
def intToChars (n : Int) : List Char :=
  if n < 0 then Char.ofNat 45 :: natToDigits n.natAbs else natToDigits n.toNat

mutual

/-- Compact serialization of a JSON value to characters. -/
def Json.encodeChars : Json → List Char
  | .null => ("null").data
  | .bool true => ("true").data
  | .bool false => ("false").data
  | .num n => intToChars n
  | .str s => jsonStringChars s
  | .arr xs => Char.ofNat 91 :: Json.encodeArrayChars xs ++ [Char.ofNat 93]
  | .obj fs => Char.ofNat 123 :: Json.encodeObjectChars fs ++ [Char.ofNat 125]

/-- Comma-separated serialization of array elements. -/
def Json.encodeArrayChars : List Json → List Char
  | [] => []
  | [x] => Json.encodeChars x
  | x :: y :: xs =>
    Json.encodeChars x ++ Char.ofNat 44 :: Json.encodeArrayChars (y :: xs)

/-- Comma-separated serialization of object members. -/
def Json.encodeObjectChars : List (String × Json) → List Char
  | [] => []
  | [(k, v)] => jsonStringChars k ++ Char.ofNat 58 :: Json.encodeChars v
  | (k, v) :: f :: fs =>
    jsonStringChars k ++ Char.ofNat 58 :: Json.encodeChars v
      ++ Char.ofNat 44 :: Json.encodeObjectChars (f :: fs)

end

/-- UTF-8 bytes of the compact serialization of a JSON value. -/
def Json.encodeBytes (j : Json) : List Nat := utf8EncodeChars j.encodeChars

/-! ## JSON parsing -/

/-- Whether a character is a decimal digit. -/
def isDigitCh (c : Char) : Bool := 48 ≤ c.toNat ∧ c.toNat ≤ 57

/-- Parse a JSON string body after the opening quote, up to and including
the closing quote; an escaped character is taken literally.  The fuel
argument keeps the recursion structural. -/
def parseStringBodyAux : Nat → List Char → Option (List Char × List Char)
  | _, [] => none
  | 0, _ :: _ => none
  | fuel + 1, c :: rest =>
    if c = Char.ofNat 34 then some ([], rest)
    else if c = Char.ofNat 92 then
      match rest with
      | [] => none
      | e :: rest2 =>
        match parseStringBodyAux fuel rest2 with
        | some (s, r) => some (e :: s, r)
        | none => none
    else
      match parseStringBodyAux fuel rest with
      | some (s, r) => some (c :: s, r)
      | none => none

/-- Parse a JSON string body after the opening quote. -/
def parseStringBody (cs : List Char) : Option (List Char × List Char) :=
  parseStringBodyAux cs.length cs

/-- Parse a run of decimal digits as a natural number. -/
def parseNatChars (cs : List Char) : Option (Nat × List Char) :=
  match parseDecimalChars (cs.takeWhile isDigitCh) with
  | some n => some (n, cs.dropWhile isDigitCh)
  | none => none

/-- Parse an optionally negated decimal integer. -/
def parseIntChars (cs : List Char) : Option (Int × List Char) :=
  match cs with
  | c :: rest =>
    if c = Char.ofNat 45 then
      match parseNatChars rest with
      | some (n, r) => some (-(n : Int), r)
      | none => none
    else
      match parseNatChars cs with
      | some (n, r) => some ((n : Int), r)
      | none => none
  | [] => none

mutual

/-- Fueled recursive-descent parser for a compact JSON value. -/
def parseJsonValue : Nat → List Char → Option (Json × List Char)
  | 0, _ => none
  | _ + 1, [] => none
  | fuel + 1, c :: rest =>
    if c = Char.ofNat 34 then
      match parseStringBody rest with
      | some (s, r) => some (Json.str (String.mk s), r)
      | none => none
    else if c = Char.ofNat 91 then
      match rest with
      | d :: rest2 =>
        if d = Char.ofNat 93 then some (Json.arr [], rest2)
        else
          match parseJsonArrayItems fuel (d :: rest2) with
          | some (vs, r) => some (Json.arr vs, r)
          | none => none
      | [] => none
    else if c = Char.ofNat 123 then
      match rest with
      | d :: rest2 =>
        if d = Char.ofNat 125 then some (Json.obj [], rest2)
        else
          match parseJsonObjectItems fuel (d :: rest2) with
          | some (fs, r) => some (Json.obj fs, r)
          | none => none
      | [] => none
    else if c = 'n' then
      match rest with
      | c1 :: c2 :: c3 :: r =>
        if c1 = 'u' ∧ c2 = 'l' ∧ c3 = 'l' then some (Json.null, r) else none
      | _ => none
    else if c = 't' then
      match rest with
      | c1 :: c2 :: c3 :: r =>
        if c1 = 'r' ∧ c2 = 'u' ∧ c3 = 'e' then some (Json.bool true, r) else none
      | _ => none
    else if c = 'f' then
      match rest with
      | c1 :: c2 :: c3 :: c4 :: r =>
        if c1 = 'a' ∧ c2 = 'l' ∧ c3 = 's' ∧ c4 = 'e' then some (Json.bool false, r)
        else none
      | _ => none
    else if c = Char.ofNat 45 ∨ isDigitCh c then
      match parseIntChars (c :: rest) with
      | some (n, r) => some (Json.num n, r)
      | none => none
    else none

/-- Parse one or more comma-separated array elements up to the closing
bracket. -/
def parseJsonArrayItems : Nat → List Char → Option (List Json × List Char)
  | 0, _ => none
  | fuel + 1, cs =>
    match parseJsonValue fuel cs with
    | none => none
    | some (v, r) =>
      match r with
      | d :: r2 =>
        if d = Char.ofNat 44 then
          match parseJsonArrayItems fuel r2 with
          | some (vs, r3) => some (v :: vs, r3)
          | none => none
        else if d = Char.ofNat 93 then some ([v], r2)
        else none
      | [] => none

/-- Parse one or more comma-separated object members up to the closing
brace. -/
def parseJsonObjectItems : Nat → List Char → Option (List (String × Json) × List Char)
  | 0, _ => none
  | fuel + 1, cs =>
    match cs with
    | c :: rest =>
      if c = Char.ofNat 34 then
        match parseStringBody rest with
        | some (k, r) =>
          match r with
          | d :: r2 =>
            if d = Char.ofNat 58 then
              match parseJsonValue fuel r2 with
              | some (v, r3) =>
                match r3 with
                | e :: r4 =>
                  if e = Char.ofNat 44 then
                    match parseJsonObjectItems fuel r4 with
                    | some (fs, r5) => some ((String.mk k, v) :: fs, r5)
                    | none => none
                  else if e = Char.ofNat 125 then some ([(String.mk k, v)], r4)
                  else none
                | [] => none
              | none => none
            else none
          | [] => none
        | none => none
      else none
    | [] => none

end

/-- Parse a complete character sequence as a single JSON value. -/
def Json.parseChars (cs : List Char) : Option Json :=
  match parseJsonValue (cs.length + 2) cs with
  | some (v, []) => some v
  | _ => none

/-- Decode a body byte sequence: UTF-8 decode, then JSON parse. -/
def Json.decodeBytes (bytes : List Nat) : Option Json :=
  match utf8DecodeChars bytes with
  | some cs => Json.parseChars cs
  | none => none

/-! ## Frame writer (send path)

Modelled from the spec: the bodies of `JSONTransport::send`, `notify`,
`reply` and `error` are not in the tree.  The frame writer serializes the
outbound JSON document, computes its encoded byte length `n` and emits
`Content-Length: n\r\n\r\n` followed by exactly the `n` body bytes. -/

/-- Emit one complete frame for a body byte sequence: the header block
`Content-Length: n` CRLF CRLF followed by exactly the body bytes. -/
def frame (body : List Nat) : List Nat :=
  utf8EncodeChars (("Content-Length: ").data ++ natToDigits body.length)
    ++ [13, 10, 13, 10] ++ body

/-- Modelled from the spec: the envelope fields `send` places around a
payload object: `"jsonrpc":"2.0"` first, then the message id when one was
supplied (a null id — the default argument — adds no id member), then the
payload's own fields. -/
def envelopeFields (id : MessageID) (payload : List (String × Json)) :
    List (String × Json) :=
  (("jsonrpc"), Json.str ("2.0"))
    :: (if id.isNull then payload else (("id"), id) :: payload)

/-- Modelled from the spec: wrap an outbound message object in the JSON-RPC
envelope; non-object messages are framed unchanged. -/
def Json.withEnvelope (message : Json) (id : MessageID) : Json :=
  match message with
  | .obj fields => .obj (envelopeFields id fields)
  | other => other

/-- Modelled from the spec: `JSONTransport::send` — the single framing
routine used by the notify/reply/error family.  The id defaults to
`Json::nullValue`, exactly as in the declaration in Transport.h. -/
def send (message : Json) (id : MessageID := Json.null) : List Nat :=
  frame (Json.encodeBytes (message.withEnvelope id))

/-- Modelled from the spec: `notify(method, params)` frames
`\x7b"jsonrpc":"2.0","method":method,"params":params\x7d` through `send`,
with no caller-supplied id. -/
def notify (method : String) (params : Json) : List Nat :=
  send (Json.obj [(("method"), Json.str method), (("params"), params)])

/-- Modelled from the spec: `reply(id, result)` frames
`\x7b"jsonrpc":"2.0","id":id,"result":result\x7d` through `send`. -/
def reply (id : MessageID) (result : Json) : List Nat :=
  send (Json.obj [(("result"), result)]) id

/-- Modelled from the spec: `error(id, code, message)` frames
`\x7b"jsonrpc":"2.0","id":id,"error":\x7b"code":code,"message":message\x7d\x7d`
through `send`. -/
def error (id : MessageID) (code : ErrorCode) (message : String) : List Nat :=
  send (Json.obj [(("error"),
    Json.obj [(("code"), Json.num code.value), (("message"), Json.str message)])]) id

/-! ## Spec-side envelope shapes

These definitions transcribe the envelope shapes the specification states
for the three send operations; the refinement theorems below compare the
send path against them. -/

/-- The notification envelope shape stated by the spec. -/
def notifyEnvelope (method : String) (params : Json) : Json :=
  Json.obj [(("jsonrpc"), Json.str ("2.0")),
            (("method"), Json.str method),
            (("params"), params)]

/-- The reply envelope shape stated by the spec. -/
def replyEnvelope (id : MessageID) (result : Json) : Json :=
  Json.obj [(("jsonrpc"), Json.str ("2.0")),
            (("id"), id),
            (("result"), result)]

/-- The error-response envelope shape stated by the spec. -/
def errorEnvelope (id : MessageID) (code : ErrorCode) (message : String) : Json :=
  Json.obj [(("jsonrpc"), Json.str ("2.0")),
            (("id"), id),
            (("error"), Json.obj [(("code"), Json.num code.value),
                                  (("message"), Json.str message)])]

/-! ## The receive path and the transport state machine -/

/-- The mutable state the transport owns on its receive path: the remaining
input channel content and whether the channel has been recognised as
closed. -/
structure TransportState where
  input : List Nat
  isClosed : Bool
deriving Repr

/-- A freshly constructed transport: channel content pending, state Open. -/
def initialState (input : List Nat) : TransportState := ⟨input, false⟩

/-- The validated `Content-Length` value of a parsed header map. -/
def contentLengthOf (hm : HeaderMap) : Option Nat :=
  match List.lookup ("Content-Length") hm with
  | some v => parseDecimal v
  | none => none

/-- Modelled from the spec: `JSONTransport::receive` — parse the header
block, read exactly `Content-Length` bytes of body, decode them as JSON.
Returns the parsed message exactly when every step succeeds; any failure
(end of stream, header-parse failure, short read, JSON-decode failure)
returns nothing and moves the transport to the Closed state, which is
terminal: a closed transport returns nothing immediately. -/
def receive (st : TransportState) : Option Json × TransportState :=
  if st.isClosed then (none, st)
  else
    match parseHeaders st.input with
    | none => (none, ⟨st.input, true⟩)
    | some (hm, rest) =>
      match contentLengthOf hm with
      | none => (none, ⟨rest, true⟩)
      | some n =>
        match readBytes n rest with
        | none => (none, ⟨rest, true⟩)
        | some (body, rest2) =>
          match Json.decodeBytes body with
          | none => (none, ⟨rest2, true⟩)
          | some v => (some v, ⟨rest2, false⟩)

/-- Iterate the receive step, discarding the returned messages. -/
def receiveIterate : Nat → TransportState → TransportState
  | 0, st => st
  | k + 1, st => receiveIterate k (receive st).2

/-- ASCII bytes of a string (one byte per character; used for the
all-ASCII header text). -/
def asciiBytes (s : String) : List Nat := s.data.map Char.toNat

/-- The three MessageID shapes named by the specification: integer, string,
or absent (null). -/
def isMessageIDShape : Json → Bool
  | .num _ => true
  | .str _ => true
  | .null => true
  | _ => false

/-! ## Decimal printing and parsing round-trip -/

theorem digitChar_toNat (d : Nat) (h : d < 10) : (digitChar d).toNat = 48 + d := by
  have hv : (48 + d).isValidChar := by
    constructor
    omega
  simp [digitChar, Char.ofNat, hv, Char.ofNatAux, Char.toNat, UInt32.toNat,
    UInt32.ofNatCore, BitVec.toNat_ofNatLt]

theorem natToDigitsAux_all_digits (fuel : Nat) :
    ∀ n, n < fuel → ∀ c ∈ natToDigitsAux fuel n, 48 ≤ c.toNat ∧ c.toNat ≤ 57 := by
  induction fuel with
  | zero => intro n hn; omega
  | succ fuel ih =>
    intro n hn c hc
    rw [natToDigitsAux] at hc
    by_cases h : n < 10
    · simp [h] at hc
      subst hc
      rw [digitChar_toNat n h]
      omega
    · simp [h] at hc
      rcases hc with h1 | h2
      · have hdiv : n / 10 < fuel := by
          have hdl : n / 10 < n := Nat.div_lt_self (by omega) (by omega)
          omega
        exact ih (n / 10) hdiv c h1
      · subst h2
        rw [digitChar_toNat (n % 10) (Nat.mod_lt n (by omega))]
        omega

theorem natToDigits_all_digits (n : Nat) :
    ∀ c ∈ natToDigits n, 48 ≤ c.toNat ∧ c.toNat ≤ 57 :=
  natToDigitsAux_all_digits (n + 1) n (Nat.lt_succ_self n)

theorem natToDigits_ne_nil (n : Nat) : natToDigits n ≠ [] := by
  rw [natToDigits, natToDigitsAux]
  by_cases h : n < 10 <;> simp [h]

theorem digitsToNatAux_append (l1 l2 : List Char) (acc : Nat) :
    digitsToNatAux (l1 ++ l2) acc =
      match digitsToNatAux l1 acc with
      | none => none
      | some m => digitsToNatAux l2 m := by
  induction l1 generalizing acc with
  | nil => simp [digitsToNatAux]
  | cons c cs ih =>
    simp only [List.cons_append, digitsToNatAux]
    cases digitVal c with
    | none => rfl
    | some d => exact ih (10 * acc + d)

theorem digitVal_digitChar (d : Nat) (h : d < 10) : digitVal (digitChar d) = some d := by
  rw [digitVal, digitChar_toNat d h]
  simp
  omega

theorem digitsToNatAux_natToDigitsAux (fuel : Nat) :
    ∀ n acc, n < fuel →
      digitsToNatAux (natToDigitsAux fuel n) acc =
        some (acc * 10 ^ (natToDigitsAux fuel n).length + n) := by
  induction fuel with
  | zero => intro n acc hn; omega
  | succ fuel ih =>
    intro n acc hn
    rw [natToDigitsAux]
    by_cases h : n < 10
    · simp [h, digitsToNatAux, digitVal_digitChar n h]
      ring
    · simp only [h, ite_false]
      rw [digitsToNatAux_append]
      have hdiv : n / 10 < fuel := by
        have hdl : n / 10 < n := Nat.div_lt_self (by omega) (by omega)
        omega
      rw [ih (n / 10) acc hdiv]
      simp only [digitsToNatAux, digitVal_digitChar (n % 10) (Nat.mod_lt n (by omega)),
        List.length_append, List.length_singleton, pow_succ]
      have hdm : 10 * (n / 10) + n % 10 = n := by omega
      congr 1
      calc 10 * (acc * 10 ^ (natToDigitsAux fuel (n / 10)).length + n / 10) + n % 10
          = acc * (10 ^ (natToDigitsAux fuel (n / 10)).length * 10)
            + (10 * (n / 10) + n % 10) := by ring
        _ = acc * (10 ^ (natToDigitsAux fuel (n / 10)).length * 10) + n := by rw [hdm]

theorem parseDecimalChars_natToDigits (n : Nat) :
    parseDecimalChars (natToDigits n) = some n := by
  rw [parseDecimalChars]
  have hne := natToDigits_ne_nil n
  simp only [List.isEmpty_iff, hne, ite_false]
  rw [natToDigits, digitsToNatAux_natToDigitsAux (n + 1) n 0 (Nat.lt_succ_self n)]
  simp

theorem parseDecimal_natToDigits (n : Nat) :
    parseDecimal (String.mk (natToDigits n)) = some n :=
  parseDecimalChars_natToDigits n

/-! ## ASCII text on the wire -/

theorem utf8EncodeChar_ascii (c : Char) (h : c.toNat < 128) :
    utf8EncodeChar c = [c.toNat] := by
  simp [utf8EncodeChar, h]

theorem utf8EncodeChars_ascii (cs : List Char) (h : ∀ c ∈ cs, c.toNat < 128) :
    utf8EncodeChars cs = cs.map Char.toNat := by
  induction cs with
  | nil => rfl
  | cons c cs ih =>
    rw [utf8EncodeChars, utf8EncodeChar_ascii c (h c (by simp)), List.map_cons]
    rw [ih (fun d hd => h d (by simp [hd]))]
    rfl

/-! ## Reading header lines -/

theorem readLineRaw_crlf (cs : List Char) (rest : List Nat)
    (h : ∀ c ∈ cs, c.toNat ≠ 10) :
    readLineRaw (cs.map Char.toNat ++ 13 :: 10 :: rest)
      = some (cs ++ [Char.ofNat 13], rest) := by
  induction cs with
  | nil =>
    simp [readLineRaw]
  | cons c cs ih =>
    rw [List.map_cons, List.cons_append, readLineRaw]
    simp only [h c (by simp), ite_false]
    rw [ih (fun d hd => h d (by simp [hd]))]
    simp [Char.ofNat_toNat]

theorem stripCR_concat (cs : List Char) : stripCR (cs ++ [Char.ofNat 13]) = cs := by
  simp [stripCR]

theorem readLine_crlf (cs : List Char) (rest : List Nat)
    (h : ∀ c ∈ cs, c.toNat ≠ 10) :
    readLine (cs.map Char.toNat ++ 13 :: 10 :: rest) = some (cs, rest) := by
  rw [readLine, readLineRaw_crlf cs rest h]
  simp only [stripCR_concat]

theorem readLine_empty_crlf (rest : List Nat) :
    readLine (13 :: 10 :: rest) = some ([], rest) := by
  have := readLine_crlf [] rest (by simp)
  simpa using this

/-! ## Header line and header block lemmas -/

theorem dropWhile_eq_self_of_all {p : Char → Bool} (l : List Char)
    (h : ∀ c ∈ l, p c = false) : l.dropWhile p = l := by
  cases l with
  | nil => rfl
  | cons c cs => simp [List.dropWhile_cons, h c (by simp)]

theorem parseHeaderLine_contentLength (ds : List Char)
    (hd : ∀ c ∈ ds, 48 ≤ c.toNat ∧ c.toNat ≤ 57) :
    parseHeaderLine (("Content-Length: ").data ++ ds)
      = some (("Content-Length"), String.mk ds) := by
  have h1 : (("Content-Length: ").data ++ ds).dropWhile (fun c => c != ':')
      = ':' :: ' ' :: ds := rfl
  have h2 : (("Content-Length: ").data ++ ds).takeWhile (fun c => c != ':')
      = ("Content-Length").data := rfl
  have h3 : (' ' :: ds).dropWhile (fun c => c == ' ') = ds := by
    rw [List.dropWhile_cons]
    simp only [beq_self_eq_true, ite_true]
    apply dropWhile_eq_self_of_all
    intro c hc
    have hcd := hd c hc
    have hcs : c ≠ ' ' := by
      intro he
      subst he
      have h32 : (' ').toNat = 32 := rfl
      rw [h32] at hcd
      omega
    simp [hcs]
  rw [parseHeaderLine, h1]
  simp only [h2, h3]

theorem validHeaderMap_singleton (ds : List Char) (hne : ds ≠ [])
    (hd : ∀ c ∈ ds, 48 ≤ c.toNat ∧ c.toNat ≤ 57) :
    validHeaderMap [(("Content-Length"), String.mk ds)] = true := by
  rw [validHeaderMap]
  simp only [List.lookup]
  simp only [beq_self_eq_true, ite_true]
  show (!ds.isEmpty && ds.all fun c => decide (48 ≤ c.toNat ∧ c.toNat ≤ 57)) = true
  simp only [Bool.and_eq_true, Bool.not_eq_true', List.all_eq_true]
  constructor
  · simp [List.isEmpty_iff, hne]
  · intro c hc
    simpa using hd c hc

theorem parseHeadersLoop_step (f : Nat) (input : List Nat) (hm : HeaderMap)
    (line : List Char) (rest : List Nat) (name value : String) (hm2 : HeaderMap)
    (hrl : readLine input = some (line, rest)) (hne : line.isEmpty = false)
    (hpl : parseHeaderLine line = some (name, value))
    (hins : insertHeader hm name value = some hm2) :
    parseHeadersLoop (f + 1) input hm = parseHeadersLoop f rest hm2 := by
  rw [parseHeadersLoop, hrl]
  simp [hne, hpl, hins]

theorem parseHeadersLoop_end (f : Nat) (input : List Nat) (hm : HeaderMap)
    (rest : List Nat) (hrl : readLine input = some ([], rest)) :
    parseHeadersLoop (f + 1) input hm
      = if validHeaderMap hm then some (hm, rest) else none := by
  rw [parseHeadersLoop, hrl]
  simp

theorem parseHeadersLoop_eof (f : Nat) (input : List Nat) (hm : HeaderMap)
    (hrl : readLine input = none) : parseHeadersLoop (f + 1) input hm = none := by
  rw [parseHeadersLoop, hrl]

theorem parseHeadersLoop_fail_line (f : Nat) (input : List Nat) (hm : HeaderMap)
    (line : List Char) (rest : List Nat)
    (hrl : readLine input = some (line, rest)) (hne : line.isEmpty = false)
    (hpl : parseHeaderLine line = none) :
    parseHeadersLoop (f + 1) input hm = none := by
  rw [parseHeadersLoop, hrl]
  simp [hne, hpl]

theorem parseHeadersLoop_fail_insert (f : Nat) (input : List Nat) (hm : HeaderMap)
    (line : List Char) (rest : List Nat) (name value : String)
    (hrl : readLine input = some (line, rest)) (hne : line.isEmpty = false)
    (hpl : parseHeaderLine line = some (name, value))
    (hins : insertHeader hm name value = none) :
    parseHeadersLoop (f + 1) input hm = none := by
  rw [parseHeadersLoop, hrl]
  simp [hne, hpl, hins]

theorem parseHeaders_eq_loop (input : List Nat) (k : Nat)
    (h : input.length + 1 = k) : parseHeaders input = parseHeadersLoop k input [] := by
  rw [parseHeaders, h]

theorem parseHeaders_canonical (n : Nat) (rest : List Nat) :
    parseHeaders (utf8EncodeChars (("Content-Length: ").data ++ natToDigits n)
        ++ 13 :: 10 :: 13 :: 10 :: rest)
      = some ([(("Content-Length"), String.mk (natToDigits n))], rest) := by
  have hd := natToDigits_all_digits n
  have hpre : ∀ c ∈ ("Content-Length: ").data, c.toNat < 128 ∧ c.toNat ≠ 10 := by
    decide
  have hascii : ∀ c ∈ ("Content-Length: ").data ++ natToDigits n, c.toNat < 128 := by
    intro c hc
    rcases List.mem_append.mp hc with h1 | h2
    · exact (hpre c h1).1
    · have := hd c h2
      omega
  have hno10 : ∀ c ∈ ("Content-Length: ").data ++ natToDigits n, c.toNat ≠ 10 := by
    intro c hc
    rcases List.mem_append.mp hc with h1 | h2
    · exact (hpre c h1).2
    · have := hd c h2
      omega
  have henc := utf8EncodeChars_ascii _ hascii
  have hline : ((("Content-Length: ").data ++ natToDigits n).isEmpty) = false := by
    simp [natToDigits_ne_nil n]
  have key : ∀ f, parseHeadersLoop (f + 1 + 1)
      ((("Content-Length: ").data ++ natToDigits n).map Char.toNat
        ++ 13 :: 10 :: (13 :: 10 :: rest)) []
      = some ([(("Content-Length"), String.mk (natToDigits n))], rest) := by
    intro f
    rw [parseHeadersLoop_step (f + 1) _ [] _ (13 :: 10 :: rest)
        ("Content-Length") (String.mk (natToDigits n))
        [(("Content-Length"), String.mk (natToDigits n))]
        (readLine_crlf _ _ hno10) hline
        (parseHeaderLine_contentLength (natToDigits n) hd) rfl]
    rw [parseHeadersLoop_end f _ _ rest (readLine_empty_crlf rest)]
    rw [validHeaderMap_singleton (natToDigits n) (natToDigits_ne_nil n) hd]
    rfl
  rw [henc]
  have hlen : ((("Content-Length: ").data ++ natToDigits n).map Char.toNat
      ++ 13 :: 10 :: (13 :: 10 :: rest)).length + 1
      = ((("Content-Length: ").data ++ natToDigits n).length + rest.length + 3) + 1 + 1 := by
    simp
    omega
  rw [parseHeaders_eq_loop _ _ hlen]
  exact key _

/-! ## Byte-exact reads and the frame round trip -/

theorem readBytes_exact (body rest : List Nat) :
    readBytes body.length (body ++ rest) = some (body, rest) := by
  rw [readBytes]
  simp [List.take_left, List.drop_left]

theorem readBytes_short (n : Nat) (input : List Nat) (h : input.length < n) :
    readBytes n input = none := by
  rw [readBytes]
  simp
  omega

theorem contentLengthOf_canonical (n : Nat) :
    contentLengthOf [(("Content-Length"), String.mk (natToDigits n))] = some n := by
  rw [contentLengthOf]
  simp only [List.lookup, beq_self_eq_true, ite_true]
  exact parseDecimal_natToDigits n

theorem receive_frame (body extra : List Nat) (v : Json)
    (h : Json.decodeBytes body = some v) :
    receive (initialState (frame body ++ extra)) = (some v, ⟨extra, false⟩) := by
  have hshape : frame body ++ extra
      = utf8EncodeChars (("Content-Length: ").data ++ natToDigits body.length)
        ++ 13 :: 10 :: 13 :: 10 :: (body ++ extra) := by
    rw [frame]
    simp
  have hrec : parseHeaders (frame body ++ extra)
      = some ([(("Content-Length"), String.mk (natToDigits body.length))],
              body ++ extra) := by
    rw [hshape]
    exact parseHeaders_canonical body.length (body ++ extra)
  rw [receive]
  simp only [initialState, hrec, contentLengthOf_canonical, readBytes_exact, h,
    Bool.false_eq_true, if_false]

/-! ## Send-path refinement lemmas -/

theorem notify_eq_frame (method : String) (params : Json) :
    notify method params = frame (Json.encodeBytes (notifyEnvelope method params)) := rfl

theorem reply_eq_frame (id : MessageID) (result : Json) (h : id.isNull = false) :
    reply id result = frame (Json.encodeBytes (replyEnvelope id result)) := by
  simp [reply, send, Json.withEnvelope, envelopeFields, h, replyEnvelope]

theorem error_eq_frame (id : MessageID) (code : ErrorCode) (message : String)
    (h : id.isNull = false) :
    error id code message = frame (Json.encodeBytes (errorEnvelope id code message)) := by
  simp [error, send, Json.withEnvelope, envelopeFields, h, errorEnvelope]

theorem receive_open (input : List Nat) :
    receive (initialState input) =
      match parseHeaders input with
      | none => (none, ⟨input, true⟩)
      | some (hm, rest) =>
        match contentLengthOf hm with
        | none => (none, ⟨rest, true⟩)
        | some n =>
          match readBytes n rest with
          | none => (none, ⟨rest, true⟩)
          | some (body, rest2) =>
            match Json.decodeBytes body with
            | none => (none, ⟨rest2, true⟩)
            | some v => (some v, ⟨rest2, false⟩) := rfl

/-! ## Claim theorems -/

/-- Claim C1: the `ErrorCode` enumeration defines exactly the numeric values
of the spec's error-code table; each symbolic name maps to its stated signed
integer (the enumerators are spelled as in Transport.h, where the two
server-error band markers are lower-cased). -/
theorem C1_errorCode_values :
    ErrorCode.value .ParseError = -32700 ∧
    ErrorCode.value .InvalidRequest = -32600 ∧
    ErrorCode.value .MethodNotFound = -32601 ∧
    ErrorCode.value .InvalidParams = -32602 ∧
    ErrorCode.value .InternalError = -32603 ∧
    ErrorCode.value .serverErrorStart = -32099 ∧
    ErrorCode.value .serverErrorEnd = -32000 ∧
    ErrorCode.value .ServerNotInitialized = -32002 ∧
    ErrorCode.value .UnknownErrorCode = -32001 ∧
    ErrorCode.value .RequestCancelled = -32800 ∧
    ErrorCode.value .ContentModified = -32801 :=
  ⟨rfl, rfl, rfl, rfl, rfl, rfl, rfl, rfl, rfl, rfl, rfl⟩

/-- Claim C2: round-trip — serializing through `notify`, `reply` or `error`
and re-parsing the produced byte frame through the header parser and the
byte-exact body reader yields a JSON document whose `method`/`params`
(notify) or `id`/`result` (reply) fields equal the inputs exactly.  The
JSON codec itself is an external collaborator, so its round-trip on the
envelope is a hypothesis, discharged concretely in the witness. -/
theorem C2_serialize_receive_roundtrip :
    (∀ (method : String) (params : Json) (extra : List Nat),
      Json.decodeBytes (Json.encodeBytes (notifyEnvelope method params))
          = some (notifyEnvelope method params) →
        receive (initialState (notify method params ++ extra))
            = (some (notifyEnvelope method params), ⟨extra, false⟩) ∧
        (notifyEnvelope method params).getField ("method") = some (Json.str method) ∧
        (notifyEnvelope method params).getField ("params") = some params) ∧
    (∀ (id result : Json) (extra : List Nat),
      id.isNull = false →
      Json.decodeBytes (Json.encodeBytes (replyEnvelope id result))
          = some (replyEnvelope id result) →
        receive (initialState (reply id result ++ extra))
            = (some (replyEnvelope id result), ⟨extra, false⟩) ∧
        (replyEnvelope id result).getField ("id") = some id ∧
        (replyEnvelope id result).getField ("result") = some result) ∧
    (∀ (id : Json) (code : ErrorCode) (message : String) (extra : List Nat),
      id.isNull = false →
      Json.decodeBytes (Json.encodeBytes (errorEnvelope id code message))
          = some (errorEnvelope id code message) →
        receive (initialState (error id code message ++ extra))
            = (some (errorEnvelope id code message), ⟨extra, false⟩) ∧
        (errorEnvelope id code message).getField ("id") = some id) := by
  refine ⟨?_, ?_, ?_⟩
  · intro method params extra hdec
    refine ⟨?_, rfl, rfl⟩
    rw [notify_eq_frame]
    exact receive_frame _ extra _ hdec
  · intro id result extra hid hdec
    refine ⟨?_, rfl, rfl⟩
    rw [reply_eq_frame id result hid]
    exact receive_frame _ extra _ hdec
  · intro id code message extra hid hdec
    refine ⟨?_, rfl⟩
    rw [error_eq_frame id code message hid]
    exact receive_frame _ extra _ hdec

/-- Witness for C2 at concrete inputs, the codec hypotheses discharged by
evaluation. -/
theorem C2_serialize_receive_roundtrip_witness :
    receive (initialState (notify ("m") (Json.num 7) ++ [65]))
        = (some (notifyEnvelope ("m") (Json.num 7)), ⟨[65], false⟩) ∧
    receive (initialState (reply (Json.str ("abc")) (Json.bool true) ++ []))
        = (some (replyEnvelope (Json.str ("abc")) (Json.bool true)), ⟨[], false⟩) ∧
    receive (initialState (error (Json.num 5) ErrorCode.InvalidRequest ("bad") ++ []))
        = (some (errorEnvelope (Json.num 5) ErrorCode.InvalidRequest ("bad")),
           ⟨[], false⟩) :=
  ⟨(C2_serialize_receive_roundtrip.1 ("m") (Json.num 7) [65] (by rfl)).1,
   (C2_serialize_receive_roundtrip.2.1 (Json.str ("abc")) (Json.bool true) []
      (by rfl) (by rfl)).1,
   (C2_serialize_receive_roundtrip.2.2 (Json.num 5) ErrorCode.InvalidRequest ("bad")
      [] (by rfl) (by rfl)).1⟩

/-- Claim C3: `receive` returns a fully parsed message exactly when a
complete frame was read and its body decoded as JSON; it returns empty on a
closed channel and on any malformed frame (header-parse failure, short
read, JSON-decode failure), and once closed every later call returns empty
immediately with the state unchanged. -/
theorem C3_receive_empty_or_message :
    (∀ st : TransportState, st.isClosed = true → receive st = (none, st)) ∧
    (∀ (input : List Nat) (v : Json),
      (receive (initialState input)).1 = some v ↔
        ∃ hm rest n body rest2,
          parseHeaders input = some (hm, rest) ∧
          contentLengthOf hm = some n ∧
          readBytes n rest = some (body, rest2) ∧
          Json.decodeBytes body = some v) ∧
    (∀ input : List Nat, parseHeaders input = none →
      receive (initialState input) = (none, ⟨input, true⟩)) ∧
    (∀ (input : List Nat) (hm : HeaderMap) (rest : List Nat) (n : Nat),
      parseHeaders input = some (hm, rest) → contentLengthOf hm = some n →
      readBytes n rest = none →
      receive (initialState input) = (none, ⟨rest, true⟩)) ∧
    (∀ (input : List Nat) (hm : HeaderMap) (rest : List Nat) (n : Nat)
        (body rest2 : List Nat),
      parseHeaders input = some (hm, rest) → contentLengthOf hm = some n →
      readBytes n rest = some (body, rest2) → Json.decodeBytes body = none →
      receive (initialState input) = (none, ⟨rest2, true⟩)) := by
  refine ⟨?_, ?_, ?_, ?_, ?_⟩
  · intro st h
    rw [receive, h]
    simp
  · intro input v
    rw [receive_open]
    constructor
    · intro h
      rcases hp : parseHeaders input with _ | ⟨hm, rest⟩ <;> simp only [hp] at h
      · simp at h
      · rcases hcl : contentLengthOf hm with _ | n <;> simp only [hcl] at h
        · simp at h
        · rcases hrb : readBytes n rest with _ | ⟨body, rest2⟩ <;> simp only [hrb] at h
          · simp at h
          · rcases hdc : Json.decodeBytes body with _ | w <;> simp only [hdc] at h
            · simp at h
            · simp at h
              exact ⟨hm, rest, n, body, rest2, rfl, hcl, hrb, by rw [hdc, h]⟩
    · rintro ⟨hm, rest, n, body, rest2, hp, hcl, hrb, hdc⟩
      simp only [hp, hcl, hrb, hdc]
  · intro input hp
    rw [receive_open]
    simp only [hp]
  · intro input hm rest n hp hcl hrb
    rw [receive_open]
    simp only [hp, hcl, hrb]
  · intro input hm rest n body rest2 hp hcl hrb hdc
    rw [receive_open]
    simp only [hp, hcl, hrb, hdc]

/-- Witness for C3 at concrete inputs: a closed transport answers empty on
unread input; a complete well-formed frame is accepted; a header block
without a frame is rejected. -/
theorem C3_receive_empty_or_message_witness :
    receive ⟨[1, 2, 3], true⟩ = (none, ⟨[1, 2, 3], true⟩) ∧
    ((receive (initialState (notify ("m") (Json.num 7) ++ []))).1
        = some (notifyEnvelope ("m") (Json.num 7))) ∧
    receive (initialState [65, 66]) = (none, ⟨[65, 66], true⟩) :=
  ⟨C3_receive_empty_or_message.1 ⟨[1, 2, 3], true⟩ rfl,
   (C3_receive_empty_or_message.2.1 (notify ("m") (Json.num 7) ++ [])
      (notifyEnvelope ("m") (Json.num 7))).mpr
     ⟨[(("Content-Length"), String.mk (natToDigits 41))],
      Json.encodeBytes (notifyEnvelope ("m") (Json.num 7)) ++ [],
      41, Json.encodeBytes (notifyEnvelope ("m") (Json.num 7)), [],
      by rfl, by rfl, by rfl, by rfl⟩,
   C3_receive_empty_or_message.2.2.1 [65, 66] (by rfl)⟩

theorem parseHeadersLoop_some_valid (f : Nat) :
    ∀ (input : List Nat) (hm0 hm : HeaderMap) (rest : List Nat),
      parseHeadersLoop f input hm0 = some (hm, rest) → validHeaderMap hm = true := by
  induction f with
  | zero =>
    intro input hm0 hm rest h
    rw [parseHeadersLoop] at h
    exact absurd h (by simp)
  | succ f ih =>
    intro input hm0 hm rest h
    rw [parseHeadersLoop] at h
    rcases hrl : readLine input with _ | ⟨line, rest2⟩ <;> simp only [hrl] at h
    · exact absurd h (by simp)
    · by_cases hline : line.isEmpty
      · simp only [hline, ite_true] at h
        by_cases hv : validHeaderMap hm0
        · simp only [hv, ite_true, Option.some.injEq, Prod.mk.injEq] at h
          rw [← h.1]
          exact hv
        · simp [hv] at h
      · simp only [Bool.not_eq_true] at hline
        simp only [hline, Bool.false_eq_true, ite_false] at h
        rcases hpl : parseHeaderLine line with _ | ⟨name, value⟩ <;> simp only [hpl] at h
        · exact absurd h (by simp)
        · rcases hins : insertHeader hm0 name value with _ | hm2 <;> simp only [hins] at h
          · exact absurd h (by simp)
          · exact ih rest2 hm2 hm rest h

theorem validHeaderMap_spec (hm : HeaderMap) (h : validHeaderMap hm = true) :
    ∃ v : String, List.lookup ("Content-Length") hm = some v ∧
      v.data ≠ [] ∧ ∀ c ∈ v.data, 48 ≤ c.toNat ∧ c.toNat ≤ 57 := by
  rw [validHeaderMap] at h
  rcases hv : List.lookup ("Content-Length") hm with _ | v <;> rw [hv] at h
  · simp at h
  · refine ⟨v, rfl, ?_, ?_⟩
    · simp only [Bool.and_eq_true, Bool.not_eq_true'] at h
      simpa [List.isEmpty_iff] using h.1
    · simp only [Bool.and_eq_true, List.all_eq_true] at h
      intro c hc
      simpa using h.2 c hc

/-- Claim C4: `parseHeaders` yields no header map on any hard parse failure
— missing `Content-Length`, non-numeric `Content-Length`, conflicting
duplicate `Content-Length` values, or a non-empty line without a colon —
and whenever it does yield a map, a valid decimal non-negative
`Content-Length` is present; the canonical well-formed header block is
accepted. -/
theorem C4_parseHeaders_failures :
    (∀ (input : List Nat) (hm : HeaderMap) (rest : List Nat),
      parseHeaders input = some (hm, rest) →
        ∃ v : String, List.lookup ("Content-Length") hm = some v ∧
          v.data ≠ [] ∧ ∀ c ∈ v.data, 48 ≤ c.toNat ∧ c.toNat ≤ 57) ∧
    (∀ rest : List Nat,
      parseHeaders (asciiBytes ("Content-Type: application/json")
          ++ 13 :: 10 :: (13 :: 10 :: rest)) = none) ∧
    (∀ rest : List Nat,
      parseHeaders (asciiBytes ("Content-Length: 12x")
          ++ 13 :: 10 :: (13 :: 10 :: rest)) = none) ∧
    (∀ rest : List Nat,
      parseHeaders (asciiBytes ("Content-Length: 3")
          ++ 13 :: 10 :: (asciiBytes ("Content-Length: 4")
            ++ 13 :: 10 :: (13 :: 10 :: rest))) = none) ∧
    (∀ rest : List Nat,
      parseHeaders (asciiBytes ("NoColonHeaderLine") ++ 13 :: 10 :: rest) = none) ∧
    (∀ (n : Nat) (rest : List Nat),
      parseHeaders (utf8EncodeChars (("Content-Length: ").data ++ natToDigits n)
          ++ 13 :: 10 :: 13 :: 10 :: rest)
        = some ([(("Content-Length"), String.mk (natToDigits n))], rest)) := by
  refine ⟨?_, ?_, ?_, ?_, ?_, parseHeaders_canonical⟩
  · intro input hm rest h
    exact validHeaderMap_spec hm
      (parseHeadersLoop_some_valid (input.length + 1) input [] hm rest h)
  · intro rest
    have h10 : ∀ c ∈ ("Content-Type: application/json").data, c.toNat ≠ 10 := by
      decide
    have key : ∀ f, parseHeadersLoop (f + 1 + 1)
        ((("Content-Type: application/json").data).map Char.toNat
          ++ 13 :: 10 :: (13 :: 10 :: rest)) [] = none := by
      intro f
      rw [parseHeadersLoop_step (f + 1) _ [] _ (13 :: 10 :: rest)
          (("Content-Type")) (("application/json"))
          [(("Content-Type"), ("application/json"))]
          (readLine_crlf _ _ h10) (by rfl) (by rfl) (by rfl)]
      rw [parseHeadersLoop_end f _ _ rest (readLine_empty_crlf rest)]
      rfl
    have hlen : ((("Content-Type: application/json").data).map Char.toNat
        ++ 13 :: 10 :: (13 :: 10 :: rest)).length + 1
        = (rest.length + 33) + 1 + 1 := by
      simp
    rw [show asciiBytes ("Content-Type: application/json")
        = (("Content-Type: application/json").data).map Char.toNat from rfl]
    rw [parseHeaders_eq_loop _ _ hlen]
    exact key _
  · intro rest
    have h10 : ∀ c ∈ ("Content-Length: 12x").data, c.toNat ≠ 10 := by
      decide
    have key : ∀ f, parseHeadersLoop (f + 1 + 1)
        ((("Content-Length: 12x").data).map Char.toNat
          ++ 13 :: 10 :: (13 :: 10 :: rest)) [] = none := by
      intro f
      rw [parseHeadersLoop_step (f + 1) _ [] _ (13 :: 10 :: rest)
          (("Content-Length")) (("12x"))
          [(("Content-Length"), ("12x"))]
          (readLine_crlf _ _ h10) (by rfl) (by rfl) (by rfl)]
      rw [parseHeadersLoop_end f _ _ rest (readLine_empty_crlf rest)]
      rfl
    have hlen : ((("Content-Length: 12x").data).map Char.toNat
        ++ 13 :: 10 :: (13 :: 10 :: rest)).length + 1
        = (rest.length + 22) + 1 + 1 := by
      simp
    rw [show asciiBytes ("Content-Length: 12x")
        = (("Content-Length: 12x").data).map Char.toNat from rfl]
    rw [parseHeaders_eq_loop _ _ hlen]
    exact key _
  · intro rest
    have h10a : ∀ c ∈ ("Content-Length: 3").data, c.toNat ≠ 10 := by
      decide
    have h10b : ∀ c ∈ ("Content-Length: 4").data, c.toNat ≠ 10 := by
      decide
    have key : ∀ f, parseHeadersLoop (f + 1 + 1)
        ((("Content-Length: 3").data).map Char.toNat
          ++ 13 :: 10 :: ((("Content-Length: 4").data).map Char.toNat
            ++ 13 :: 10 :: (13 :: 10 :: rest))) [] = none := by
      intro f
      rw [parseHeadersLoop_step (f + 1) _ [] _
          ((("Content-Length: 4").data).map Char.toNat ++ 13 :: 10 :: (13 :: 10 :: rest))
          (("Content-Length")) (("3")) [(("Content-Length"), ("3"))]
          (readLine_crlf _ _ h10a) (by rfl) (by rfl) (by rfl)]
      exact parseHeadersLoop_fail_insert f _ _ _ (13 :: 10 :: rest)
        (("Content-Length")) (("4"))
        (readLine_crlf _ _ h10b) (by rfl) (by rfl) (by rfl)
    have hlen : ((("Content-Length: 3").data).map Char.toNat
        ++ 13 :: 10 :: ((("Content-Length: 4").data).map Char.toNat
          ++ 13 :: 10 :: (13 :: 10 :: rest))).length + 1
        = (rest.length + 39) + 1 + 1 := by
      simp
    rw [show asciiBytes ("Content-Length: 3")
        = (("Content-Length: 3").data).map Char.toNat from rfl]
    rw [show asciiBytes ("Content-Length: 4")
        = (("Content-Length: 4").data).map Char.toNat from rfl]
    rw [parseHeaders_eq_loop _ _ hlen]
    exact key _
  · intro rest
    have h10 : ∀ c ∈ ("NoColonHeaderLine").data, c.toNat ≠ 10 := by
      decide
    have key : ∀ f, parseHeadersLoop (f + 1)
        ((("NoColonHeaderLine").data).map Char.toNat ++ 13 :: 10 :: rest) [] = none := by
      intro f
      exact parseHeadersLoop_fail_line f _ [] _ rest
        (readLine_crlf _ _ h10) (by rfl) (by rfl)
    have hlen : ((("NoColonHeaderLine").data).map Char.toNat
        ++ 13 :: 10 :: rest).length + 1 = (rest.length + 19) + 1 := by
      simp
    rw [show asciiBytes ("NoColonHeaderLine")
        = (("NoColonHeaderLine").data).map Char.toNat from rfl]
    rw [parseHeaders_eq_loop _ _ hlen]
    exact key _

/-- Witness for C4 at a concrete accepted header block. -/
theorem C4_parseHeaders_failures_witness :
    ∃ v : String,
      List.lookup ("Content-Length") [(("Content-Length"), ("2"))] = some v ∧
      v.data ≠ [] ∧ ∀ c ∈ v.data, 48 ≤ c.toNat ∧ c.toNat ≤ 57 :=
  C4_parseHeaders_failures.1
    (asciiBytes ("Content-Length: 2") ++ 13 :: 10 :: (13 :: 10 :: [65, 66]))
    [(("Content-Length"), ("2"))] [65, 66] (by rfl)

/-- Claim C5: byte-exact body read — for a validated body length `n`,
`readBytes` returns exactly `n` bytes without interpreting them (CR, LF,
control bytes and continuation bytes included), and a short read (channel
ends before `n` bytes) is a failure, never a partial return. -/
theorem C5_readBytes_byte_exact :
    (∀ (n : Nat) (body rest : List Nat), body.length = n →
      readBytes n (body ++ rest) = some (body, rest)) ∧
    (∀ (n : Nat) (input : List Nat), input.length < n → readBytes n input = none) := by
  constructor
  · intro n body rest h
    subst h
    exact readBytes_exact body rest
  · exact readBytes_short

/-- Witness for C5: a body holding CR, LF, NUL and a continuation byte is
consumed verbatim, and a channel two bytes short fails. -/
theorem C5_readBytes_byte_exact_witness :
    readBytes 5 ([13, 10, 0, 200, 65] ++ [1, 2]) = some ([13, 10, 0, 200, 65], [1, 2]) ∧
    readBytes 4 [13, 10] = none :=
  ⟨C5_readBytes_byte_exact.1 5 [13, 10, 0, 200, 65] [1, 2] rfl,
   C5_readBytes_byte_exact.2 4 [13, 10] (by simp)⟩

set_option maxRecDepth 4000 in
/-- Claim C6: `error(id, code, message)` constructs exactly the envelope
`\x7b"jsonrpc":"2.0","id":id,"error":\x7b"code":code,"message":message\x7d\x7d`;
at `id=5`, `code=InvalidRequest`, `message="bad"` the body is byte-for-byte
the stated JSON text, 64 bytes long, and the frame declares exactly that
length in its `Content-Length` header. -/
theorem C6_error_construction :
    (∀ (id : MessageID) (code : ErrorCode) (message : String), id.isNull = false →
      error id code message = frame (Json.encodeBytes (errorEnvelope id code message))) ∧
    Json.encodeBytes (errorEnvelope (Json.num 5) ErrorCode.InvalidRequest ("bad"))
      = asciiBytes
          ("\x7b\"jsonrpc\":\"2.0\",\"id\":5,\"error\":\x7b\"code\":-32600,\"message\":\"bad\"\x7d\x7d") ∧
    (Json.encodeBytes (errorEnvelope (Json.num 5) ErrorCode.InvalidRequest ("bad"))).length
      = 64 ∧
    error (Json.num 5) ErrorCode.InvalidRequest ("bad")
      = asciiBytes ("Content-Length: 64") ++ [13, 10, 13, 10]
        ++ Json.encodeBytes (errorEnvelope (Json.num 5) ErrorCode.InvalidRequest ("bad")) := by
  refine ⟨error_eq_frame, by rfl, by rfl, by rfl⟩

/-- Witness for C6 at the concrete inputs of the claim. -/
theorem C6_error_construction_witness :
    error (Json.num 5) ErrorCode.InvalidRequest ("bad")
      = frame (Json.encodeBytes
          (errorEnvelope (Json.num 5) ErrorCode.InvalidRequest ("bad"))) :=
  C6_error_construction.1 (Json.num 5) ErrorCode.InvalidRequest ("bad") rfl

/-- Claim C7: the transport state machine has exactly the states Open and
Closed (a boolean flag), starts Open, moves to Closed only when `receive`
fails (end of stream or unrecoverable parse error), and Closed is terminal:
once closed, every later `receive` returns empty and leaves the state
unchanged, over any number of steps. -/
theorem C7_closed_monotonic :
    (∀ input : List Nat, (initialState input).isClosed = false) ∧
    (∀ st : TransportState, st.isClosed = true →
      receive st = (none, st)) ∧
    (∀ st : TransportState, st.isClosed = true → (receive st).2.isClosed = true) ∧
    (∀ st : TransportState, st.isClosed = false →
      (receive st).2.isClosed = true → (receive st).1 = none) ∧
    (∀ (st : TransportState) (k : Nat), st.isClosed = true →
      receiveIterate k st = st) := by
  have hclosed : ∀ st : TransportState, st.isClosed = true → receive st = (none, st) := by
    intro st h
    rw [receive, h]
    simp
  refine ⟨fun _ => rfl, hclosed, ?_, ?_, ?_⟩
  · intro st h
    rw [hclosed st h, h]
  · intro st hopen hstep
    rcases st with ⟨input, flag⟩
    simp only at hopen
    subst hopen
    have hstep2 : (receive (initialState input)).2.isClosed = true := hstep
    show (receive (initialState input)).1 = none
    rw [receive_open] at hstep2 ⊢
    rcases hp : parseHeaders input with _ | ⟨hm, rest⟩ <;> simp only [hp] at hstep2 ⊢
    rcases hcl : contentLengthOf hm with _ | n <;> simp only [hcl] at hstep2 ⊢
    rcases hrb : readBytes n rest with _ | ⟨body, rest2⟩ <;> simp only [hrb] at hstep2 ⊢
    rcases hdc : Json.decodeBytes body with _ | v <;> simp only [hdc] at hstep2 ⊢
    exact absurd hstep2 (by simp)
  · intro st k h
    induction k with
    | zero => rfl
    | succ k ih =>
      rw [receiveIterate, hclosed st h]
      exact ih

/-- Witness for C7: a closed transport ignores pending input over repeated
steps, and an open transport that hits end of stream closes while
returning empty. -/
theorem C7_closed_monotonic_witness :
    receive ⟨[1, 2, 3], true⟩ = (none, ⟨[1, 2, 3], true⟩) ∧
    (receive ⟨[1, 2, 3], true⟩).2.isClosed = true ∧
    receiveIterate 3 ⟨[7], true⟩ = ⟨[7], true⟩ ∧
    (receive ⟨[], false⟩).1 = none :=
  ⟨C7_closed_monotonic.2.1 ⟨[1, 2, 3], true⟩ rfl,
   C7_closed_monotonic.2.2.1 ⟨[1, 2, 3], true⟩ rfl,
   C7_closed_monotonic.2.2.2.2 ⟨[7], true⟩ 3 rfl,
   C7_closed_monotonic.2.2.2.1 ⟨[], false⟩ rfl (by rfl)⟩

/-- Claim C8 as stated is false of the code: Transport.h declares
`using MessageID = Json::Value;`, so a boolean JSON value is a
`MessageID` even though it is none of the three shapes integer, string,
or absent. -/
theorem C8_messageID_counterexample :
    ¬ ∀ id : MessageID, isMessageIDShape id = true := fun h =>
  Bool.false_ne_true (h (Json.bool true))

/-- Claim C8 amended: `MessageID` is an alias of the whole JSON value type;
the protocol's id shapes — integer, string, and absent (null) — are all
representable, the notification envelope carries no id member, but the
alias itself does not exclude other JSON shapes such as booleans. -/
theorem C8_messageID_shapes :
    isMessageIDShape ((Json.num 3 : MessageID)) = true ∧
    isMessageIDShape ((Json.str ("abc") : MessageID)) = true ∧
    isMessageIDShape ((Json.null : MessageID)) = true ∧
    isMessageIDShape ((Json.bool true : MessageID)) = false ∧
    (∀ (method : String) (params : Json),
      (notifyEnvelope method params).getField ("id") = none) :=
  ⟨rfl, rfl, rfl, rfl, fun _ _ => rfl⟩

/-- Claim C9: the three public send operations all funnel through the
single framing routine `send`, differing only in the envelope payload they
pass it, and every emitted frame is the header block
`Content-Length: n` CRLF CRLF followed by exactly the `n` body bytes. -/
theorem C9_send_funnel :
    (∀ (method : String) (params : Json),
      notify method params
          = send (Json.obj [(("method"), Json.str method), (("params"), params)]) ∧
      notify method params = frame (Json.encodeBytes (notifyEnvelope method params))) ∧
    (∀ (id : MessageID) (result : Json), id.isNull = false →
      reply id result = send (Json.obj [(("result"), result)]) id ∧
      reply id result = frame (Json.encodeBytes (replyEnvelope id result))) ∧
    (∀ (id : MessageID) (code : ErrorCode) (message : String), id.isNull = false →
      error id code message
          = send (Json.obj [(("error"), Json.obj [(("code"), Json.num code.value),
              (("message"), Json.str message)])]) id ∧
      error id code message = frame (Json.encodeBytes (errorEnvelope id code message))) ∧
    (∀ body : List Nat,
      frame body = asciiBytes ("Content-Length: ")
        ++ (natToDigits body.length).map Char.toNat ++ ([13, 10, 13, 10] ++ body)) := by
  refine ⟨?_, ?_, ?_, ?_⟩
  · intro method params
    exact ⟨rfl, notify_eq_frame method params⟩
  · intro id result h
    exact ⟨rfl, reply_eq_frame id result h⟩
  · intro id code message h
    exact ⟨rfl, error_eq_frame id code message h⟩
  · intro body
    have hd := natToDigits_all_digits body.length
    have hpre : ∀ c ∈ ("Content-Length: ").data, c.toNat < 128 := by
      decide
    have hascii : ∀ c ∈ ("Content-Length: ").data ++ natToDigits body.length,
        c.toNat < 128 := by
      intro c hc
      rcases List.mem_append.mp hc with h1 | h2
      · exact hpre c h1
      · have := hd c h2
        omega
    rw [frame, utf8EncodeChars_ascii _ hascii, List.map_append]
    simp [asciiBytes]

/-- Witness for C9 with a concrete non-null id. -/
theorem C9_send_funnel_witness :
    (reply (Json.num 1) (Json.bool true)
        = send (Json.obj [(("result"), Json.bool true)]) (Json.num 1) ∧
      reply (Json.num 1) (Json.bool true)
        = frame (Json.encodeBytes (replyEnvelope (Json.num 1) (Json.bool true)))) ∧
    (error (Json.num 1) ErrorCode.ParseError ("x")
        = send (Json.obj [(("error"), Json.obj
            [(("code"), Json.num (ErrorCode.value ErrorCode.ParseError)),
             (("message"), Json.str ("x"))])]) (Json.num 1) ∧
      error (Json.num 1) ErrorCode.ParseError ("x")
        = frame (Json.encodeBytes (errorEnvelope (Json.num 1) ErrorCode.ParseError ("x")))) :=
  ⟨C9_send_funnel.2.1 (Json.num 1) (Json.bool true) rfl,
   C9_send_funnel.2.2.1 (Json.num 1) ErrorCode.ParseError ("x") rfl⟩

/-- Claim C10: `send` invoked without an explicit id defaults the id to the
JSON null value (`Json::nullValue`), exactly as declared in Transport.h;
with that default the envelope the framing routine builds carries no id
member. -/
theorem C10_send_default_id :
    (∀ message : Json, send message = send message Json.null) ∧
    Json.isNull Json.null = true ∧
    (∀ fields : List (String × Json),
      Json.withEnvelope (Json.obj fields) Json.null
        = Json.obj ((("jsonrpc"), Json.str ("2.0")) :: fields)) :=
  ⟨fun _ => rfl, rfl, fun _ => rfl⟩

end Solidity.Lsp
